import Mathlib

/-!
# Verification of the syft-data-science job-governance core

A shallow embedding of the job governance core of the OpenMined
syft-data-science repository: the record store, the job lifecycle state
machine, the sandboxed runtime executor wrapper (from `src/Dockerfile`),
and the disclosure gate.  The repository ships the state diagram
(`docs/state_diagram.md`), the runtime Dockerfiles, and the notebook
clients; the Python implementation of the store / state machine /
disclosure gate is not part of the source tree, so those components are
modelled from the specification and marked as such in their doc comments.
-/

namespace SyftDS

/-- Error taxonomy of the system (spec §7, plus `AlreadyExists` used by
`create` in §4.1). -/
inductive ErrorKind where
  | ValidationError
  | NotFoundError
  | AuthorizationError
  | InvalidTransition
  | Conflict
  | ExecutionTimeout
  | ExecutionFailure
  | DisclosureError
  | StorageError
  | AlreadyExists
  deriving DecidableEq, Repr

/-- Server-assigned bookkeeping fields shared by every record
(spec §3, Record base): unique id, creation timestamp, last-updated
timestamp, version counter for optimistic concurrency. -/
structure Meta where
  id : Nat
  created_at : Nat
  updated_at : Nat
  version : Nat
  deriving DecidableEq, Repr

/-- A stored record: server-assigned metadata plus the client payload. -/
structure StoreRec (α : Type) where
  meta : Meta
  value : α
  deriving DecidableEq, Repr

/-- Modelled from the spec: the Record Store state (§4.1).  The Python
implementation (`syft_rds.store`) is absent from the source tree; only
its notebook callers are present.  Records of one kind are kept in a
list; `nextId` is the id assigned to the next created record. -/
structure Store (α : Type) where
  records : List (StoreRec α)
  nextId : Nat
  deriving DecidableEq, Repr

/-- The empty store. -/
def Store.empty {α : Type} : Store α := ⟨[], 0⟩

/-- Store well-formedness: stored ids are pairwise distinct and all are
below `nextId` (so a freshly assigned id never collides). -/
def Store.WF {α : Type} (s : Store α) : Prop :=
  (s.records.map (fun r => r.meta.id)).Nodup ∧
    ∀ r ∈ s.records, r.meta.id < s.nextId

instance {α : Type} (s : Store α) : Decidable s.WF := by
  unfold Store.WF; infer_instance

/-- Modelled from the spec: `create(record)` (§4.1): `AlreadyExists` on
a declared-unique-field collision, otherwise assigns the next id, stamps
timestamps, starts the version counter, and appends the record.  A
failed create leaves the store unchanged (write-temp-then-atomic-replace:
readers never observe partial writes). -/
def Store.create {α : Type} (conflict : α → α → Bool) (now : Nat) (v : α)
    (s : Store α) : Except ErrorKind Nat × Store α :=
  if s.records.any (fun r => conflict r.value v) then
    (.error .AlreadyExists, s)
  else
    (.ok s.nextId,
      ⟨s.records ++ [⟨⟨s.nextId, now, now, 1⟩, v⟩], s.nextId + 1⟩)

/-- Modelled from the spec: `read(id)` (§4.1): `NotFound` if absent,
otherwise a snapshot (deep copy — values here have value semantics) of
the stored record. -/
def Store.read {α : Type} (i : Nat) (s : Store α) :
    Except ErrorKind (StoreRec α) :=
  match s.records.find? (fun r => r.meta.id == i) with
  | some r => .ok r
  | none => .error .NotFoundError

/-- Modelled from the spec: `update(id, newValue, expectedVersion)`
(§4.1): `NotFound` if absent; `Conflict` if the stored version differs
from `expectedVersion` (optimistic concurrency); otherwise atomically
replaces the payload, increments the version, refreshes `updated_at`,
and preserves `id` and `created_at`.  On failure the store is returned
unchanged (no partial application). -/
def Store.update {α : Type} (now : Nat) (i : Nat) (v : α)
    (expectedVersion : Nat) (s : Store α) :
    Except ErrorKind (StoreRec α) × Store α :=
  match s.records.find? (fun r => r.meta.id == i) with
  | none => (.error .NotFoundError, s)
  | some r =>
    if r.meta.version = expectedVersion then
      let r2 : StoreRec α :=
        ⟨⟨r.meta.id, r.meta.created_at, now, r.meta.version + 1⟩, v⟩
      (.ok r2,
        ⟨s.records.map (fun q => if q.meta.id == i then r2 else q),
          s.nextId⟩)
    else
      (.error .Conflict, s)

/-- Modelled from the spec: `delete(id)` (§4.1): removes the record,
idempotent; returns whether something was removed. -/
def Store.delete {α : Type} (i : Nat) (s : Store α) : Bool × Store α :=
  (s.records.any (fun r => r.meta.id == i),
    ⟨s.records.filter (fun r => !(r.meta.id == i)), s.nextId⟩)

/-! ## Query -/

/-- Requested sort direction of a query. -/
inductive SortOrder where
  | asc
  | desc
  deriving DecidableEq, Repr

/-- Modelled from the spec: a declared filter predicate of `query`
(§4.1): exact match or range on a declared field of the record.  A
field is modelled as its numeric valuation on the stored record. -/
inductive Filter (α : Type) where
  | exact (field : StoreRec α → Nat) (v : Nat)
  | range (field : StoreRec α → Nat) (lo hi : Nat)

/-- Whether one filter accepts a record. -/
def Filter.accepts {α : Type} : Filter α → StoreRec α → Bool
  | .exact f v, r => f r == v
  | .range f lo hi, r => decide (lo ≤ f r) && decide (f r ≤ hi)

/-- Whether a record matches all filter predicates of a query. -/
def matchesAll {α : Type} (fs : List (Filter α)) (r : StoreRec α) : Bool :=
  fs.all (fun f => f.accepts r)

/-- Comparison of sort keys: primary key in the requested direction,
id ascending as tie-break (spec §4.1: "deterministic ordering by
`order_by` then by id as tie-break"). -/
def keyLe (ord : SortOrder) (x y : Nat × Nat) : Bool :=
  if x.1 = y.1 then decide (x.2 ≤ y.2)
  else
    match ord with
    | .asc => decide (x.1 < y.1)
    | .desc => decide (y.1 < x.1)

/-- Strict version of `keyLe`. -/
def keyLt (ord : SortOrder) (x y : Nat × Nat) : Bool :=
  !(x == y) && keyLe ord x y

/-- The sort key of a record under an optional `order_by` field: the
field valuation when given, `created_at` by default, paired with the
record id as tie-break. -/
def sortKey {α : Type} (orderBy : Option (StoreRec α → Nat))
    (r : StoreRec α) : Nat × Nat :=
  ((orderBy.getD (fun q => q.meta.created_at)) r, r.meta.id)

/-- The record ordering used by `query`: `order_by` valuation (default
`created_at`) in the requested direction (default descending), then id
ascending. -/
def recLe {α : Type} (orderBy : Option (StoreRec α → Nat))
    (sortOrder : Option SortOrder) (a b : StoreRec α) : Bool :=
  keyLe (sortOrder.getD .desc) (sortKey orderBy a) (sortKey orderBy b)

/-- Strict version of `recLe`. -/
def recLt {α : Type} (orderBy : Option (StoreRec α → Nat))
    (sortOrder : Option SortOrder) (a b : StoreRec α) : Bool :=
  keyLt (sortOrder.getD .desc) (sortKey orderBy a) (sortKey orderBy b)

/-- Modelled from the spec: `query(filters, order_by, sort_order,
limit)` (§4.1): linear scan keeping the records matching all filter
predicates, sorted by the `order_by` valuation (default: `created_at`
descending) with id as tie-break, truncated to `limit` when given. -/
def Store.query {α : Type} (fs : List (Filter α))
    (orderBy : Option (StoreRec α → Nat)) (sortOrder : Option SortOrder)
    (limit : Option Nat) (s : Store α) : List (StoreRec α) :=
  let sorted :=
    (s.records.filter (matchesAll fs)).mergeSort (recLe orderBy sortOrder)
  match limit with
  | none => sorted
  | some n => sorted.take n

/-! ## Datasets -/

/-- A Dataset payload (spec §3): owner namespace, name (unique within
the owner's namespace), private and mock paths, and a summary.  Paths
are modelled as segment lists. -/
structure Dataset where
  owner : String
  name : String
  private_path : List String
  mock_path : List String
  summary : String
  deriving DecidableEq, Repr

/-- The declared unique-field collision for datasets (spec §4.1 and §8:
dataset names are unique per owner). -/
def datasetConflict (d1 d2 : Dataset) : Bool :=
  d1.owner == d2.owner && d1.name == d2.name

/-! ## Job state machine -/

/-- Job lifecycle states (spec §4.2; `docs/state_diagram.md`). -/
inductive JobStatus where
  | codeReview
  | queued
  | running
  | failed
  | pendingOutputReview
  | outputShared
  | rejected
  deriving DecidableEq, Repr

/-- Actors that may trigger transitions (spec §4.2). -/
inductive Actor where
  | dataOwner
  | dataScientist
  | system
  deriving DecidableEq, Repr

/-- Failure diagnostic carried by a failed job: error kind plus the
captured exit code (spec §3 Job: "failure reason (kind + message)"). -/
structure Diagnostic where
  kind : ErrorKind
  exitCode : Nat
  deriving DecidableEq, Repr

/-- A Job payload (spec §3): references to its dataset and user code,
the requester, the lifecycle status, a retry counter for the
`Failed → Queued` guard, and the failure diagnostic when applicable.
Server-assigned id/timestamps/version live in `Meta` at the store
level. -/
structure Job where
  dataset_id : Nat
  user_code_id : Nat
  requester : String
  status : JobStatus
  retries : Nat
  failure : Option Diagnostic
  deriving DecidableEq, Repr

/-- The declared transition table of the job lifecycle
(`docs/state_diagram.md`, actors per spec §4.2): for a (source, target)
pair in the table, the actor allowed to trigger it; `none` for pairs
absent from the table. -/
def edgeActor : JobStatus → JobStatus → Option Actor
  | .codeReview, .queued => some .dataOwner
  | .codeReview, .rejected => some .dataOwner
  | .queued, .running => some .dataOwner
  | .running, .failed => some .system
  | .running, .pendingOutputReview => some .system
  | .failed, .queued => some .dataOwner
  | .pendingOutputReview, .outputShared => some .dataOwner
  | .pendingOutputReview, .failed => some .dataOwner
  | _, _ => none

/-- Guard condition of an edge (spec §4.2): `Failed → Queued` requires
that the retry count is below the configured maximum; every other
declared edge is guarded only by the actor's decision. -/
def edgeGuard (maxRetries : Nat) (src tgt : JobStatus) (j : Job) : Bool :=
  match src, tgt with
  | .failed, .queued => j.retries < maxRetries
  | _, _ => true

/-- Modelled from the spec: applying one lifecycle transition to a Job
payload (§4.2; the state-machine implementation is absent from the
source tree).  A (source, target) pair absent from the table fails with
`InvalidTransition`; a declared pair triggered by the wrong actor fails
with `AuthorizationError`; a declared pair whose guard fails also fails
with `InvalidTransition` ("guard not satisfied or no such edge"). -/
def applyTransition (maxRetries : Nat) (actor : Actor) (target : JobStatus)
    (j : Job) : Except ErrorKind Job :=
  match edgeActor j.status target with
  | none => .error .InvalidTransition
  | some a =>
    if actor ≠ a then .error .AuthorizationError
    else if !(edgeGuard maxRetries j.status target j) then
      .error .InvalidTransition
    else
      .ok { j with
              status := target,
              retries :=
                if j.status = .failed ∧ target = .queued then
                  j.retries + 1
                else j.retries }

/-- Modelled from the spec: a transition applied through the store as a
single version-checked `update` of the Job record (§4.2).  Returns the
outcome and the resulting store; on any failure the store is returned
unchanged. -/
def transitionInStore (now maxRetries : Nat) (actor : Actor)
    (target : JobStatus) (i : Nat) (s : Store Job) :
    Except ErrorKind Unit × Store Job :=
  match Store.read i s with
  | .error e => (.error e, s)
  | .ok r =>
    match applyTransition maxRetries actor target r.value with
    | .error e => (.error e, s)
    | .ok j2 =>
      match Store.update now i j2 r.meta.version s with
      | (.ok _, s2) => (.ok (), s2)
      | (.error e, _) => (.error e, s)

/-! ## Disclosure gate -/

/-- Execution artifacts: named files with byte contents. -/
structure Artifacts where
  files : List (String × List Nat)
  deriving DecidableEq, Repr

/-- The disclosure-gate view of a job: the parties, the lifecycle
status, the raw artifacts held in owner-controlled storage, and the
copy made visible to the requester once shared. -/
structure GateJob where
  owner : String
  requester : String
  status : JobStatus
  outputs : Artifacts
  shared : Option Artifacts
  deriving DecidableEq, Repr

/-- Modelled from the spec: `review_results(job)` (§4.4; the disclosure
gate implementation is absent from the source tree, only its notebook
callers are).  Owner-only; returns the raw artifacts of a job in
`PendingOutputReview`/`Failed` without altering visibility. -/
def review_results (actor : String) (j : GateJob) :
    Except ErrorKind Artifacts :=
  if actor ≠ j.owner then .error .AuthorizationError
  else if j.status = .pendingOutputReview ∨ j.status = .failed then
    .ok j.outputs
  else .error .ValidationError

/-- Modelled from the spec: `share_results(job)` (§4.4).  Owner-only;
copies the output artifacts to the requester-visible location and moves
the job to `OutputShared`; idempotent on an already-shared job. -/
def share_results (actor : String) (j : GateJob) :
    Except ErrorKind GateJob :=
  if actor ≠ j.owner then .error .AuthorizationError
  else if j.status = .outputShared then .ok j
  else if j.status = .pendingOutputReview then
    .ok { j with status := .outputShared, shared := some j.outputs }
  else .error .InvalidTransition

/-- Modelled from the spec: `get_results(job)` (§4.4).  Requester-only;
fails with `DisclosureError` unless the job is in `OutputShared`,
otherwise returns the shared artifacts. -/
def get_results (actor : String) (j : GateJob) :
    Except ErrorKind Artifacts :=
  if actor ≠ j.requester then .error .AuthorizationError
  else
    match j.shared with
    | some a => if j.status = .outputShared then .ok a
                else .error .DisclosureError
    | none => .error .DisclosureError

/-! ## Sandboxed runtime executor -/

/-- The observable behaviour of one submitted script run: how many
seconds it would run before exiting on its own, and its own exit
code. -/
structure ScriptRun where
  duration : Nat
  exitCode : Nat
  deriving DecidableEq, Repr

/-- Outcome of `timeout -s TERM $TIMEOUT cmd` around the script, as
invoked by the ENTRYPOINT of `src/Dockerfile`: modelled from the GNU
coreutils `timeout` semantics — when the run time exceeds the limit,
`TERM` is sent to the monitored process group and `timeout` exits with
status 124; otherwise the command's own exit status passes through. -/
structure TimeoutOutcome where
  exitCode : Nat
  signaledGroup : Bool
  deriving DecidableEq, Repr

/-- `timeout -s TERM limit` applied to a script run. -/
def timeoutRun (limit : Nat) (r : ScriptRun) : TimeoutOutcome :=
  if limit < r.duration then ⟨124, true⟩ else ⟨r.exitCode, false⟩

/-- Result of the container entrypoint: final exit status and whether
`TIMEOUT_MESSAGE` was printed to stderr. -/
structure EntrypointOutcome where
  exitCode : Nat
  timeoutMessageOnStderr : Bool
  deriving DecidableEq, Repr

/-- The inline ENTRYPOINT of `src/Dockerfile`:
`timeout -s TERM $TIMEOUT python "$@" ||
 { test $? -eq 124 && echo "$TIMEOUT_MESSAGE" >&2 && exit 124; }`.
Shell semantics: when `timeout` exits 0 the right-hand side is skipped
and the shell exits 0; when it exits 124 the brace group echoes
`TIMEOUT_MESSAGE` to stderr and exits 124; for any other nonzero status
`test $? -eq 124` fails, the `&&` chain stops, and the shell's exit
status is the status of the failed `test`, namely 1. -/
def entrypointRun (limit : Nat) (r : ScriptRun) : EntrypointOutcome :=
  let t := timeoutRun limit r
  if t.exitCode = 0 then ⟨0, false⟩
  else if t.exitCode = 124 then ⟨124, true⟩
  else ⟨1, false⟩

/-- An executor report (spec §4.3 items 4–6). -/
inductive ExecReport where
  | success
  | failure (d : Diagnostic)
  deriving DecidableEq, Repr

/-- Modelled from the spec: how the executor classifies the container
outcome (§4.3; the executor implementation is absent from the source
tree): exit 0 is success, exit 124 is `ExecutionTimeout` (reported
distinctly from `ExecutionFailure`), any other nonzero exit is
`ExecutionFailure` with the captured exit code. -/
def reportOf (e : EntrypointOutcome) : ExecReport :=
  if e.exitCode = 0 then .success
  else if e.exitCode = 124 then .failure ⟨.ExecutionTimeout, 124⟩
  else .failure ⟨.ExecutionFailure, e.exitCode⟩

/-- Modelled from the spec: the system transition applied to a Running
job when the executor reports (§4.2, §7): success moves the job to
`PendingOutputReview`; failure moves it to `Failed` carrying the
diagnostic (execution failures are never silently absorbed). -/
def jobAfterRun (maxRetries limit : Nat) (r : ScriptRun) (j : Job) :
    Except ErrorKind Job :=
  match reportOf (entrypointRun limit r) with
  | .success => applyTransition maxRetries .system .pendingOutputReview j
  | .failure d =>
    applyTransition maxRetries .system .failed { j with failure := some d }

/-! ## Execution context isolation -/

/-- A bind mount of the execution context: mount point (path segments),
whether the mount itself is read-only, the Unix permission bits of the
mounted directory, and its owning uid. -/
structure Mount where
  path : List String
  readOnly : Bool
  mode : Nat
  ownerUid : Nat
  deriving DecidableEq, Repr

/-- The execution context of one run: the mount table and the uid the
process runs under. -/
structure ExecContext where
  mounts : List Mount
  uid : Nat
  deriving DecidableEq, Repr

/-- Whether `p` is `q` or lies below `q` (path-segment order). -/
def underPath (q p : List String) : Bool :=
  q.isPrefixOf p

/-- Unix write check of a directory for a uid (owner and world write
bits; the images use a single restricted user, so the group bit is
immaterial). -/
def modeAllowsWrite (mode ownerUid uid : Nat) : Bool :=
  if uid = ownerUid then mode / 128 % 2 == 1 else mode % 2 == 1

/-- Whether a process with uid `uid` can write at path `p` in context
`ctx`: the path must lie inside some mount, the mount must be
read-write, and the directory permission bits must allow the write. -/
def canWrite (ctx : ExecContext) (uid : Nat) (p : List String) : Bool :=
  ctx.mounts.any (fun m =>
    underPath m.path p && !m.readOnly && modeAllowsWrite m.mode m.ownerUid uid)

/-- The uid of the restricted runtime user created by the images
(`adduser --uid 1000` in `src/Dockerfile`, `runtimeuser` in
`src/runtimes`). -/
def runtimeUid : Nat := 1000

/-- The execution context materialised for a run.  From the source
tree: the code directory is owned by the runtime user with mode `500`
(`chmod 500 /code` in `src/Dockerfile` and `src/runtimes/*.Dockerfile`)
and the process runs as the non-privileged uid 1000 (`USER pythonuser`/
`USER runtimeuser`); the output directory is writable (`chmod 777
/output` in `src/runtimes/python_test.Dockerfile`).  Modelled from the
spec: the code and dataset mounts are read-only and the mount table is
exactly code, data and output (§4.3 item 1; the executor code that
issues the container run is absent from the source tree).  `0o500 =
320` and `0o777 = 511`. -/
def execContext : ExecContext :=
  ⟨[⟨["code"], true, 320, runtimeUid⟩,
    ⟨["data"], true, 320, runtimeUid⟩,
    ⟨["output"], false, 511, runtimeUid⟩], runtimeUid⟩

/-! ## Sample values (used by the concrete witnesses) -/

/-- A sample job sitting in code review. -/
def jobCR : Job := ⟨1, 2, "ds@example.org", .codeReview, 0, none⟩

/-- A sample job store holding `jobCR` under id 0. -/
def storeCR : Store Job := ⟨[⟨⟨0, 10, 10, 1⟩, jobCR⟩], 1⟩

/-- A sample store of plain numeric payloads. -/
def natStore : Store Nat := ⟨[⟨⟨0, 5, 5, 1⟩, 7⟩], 1⟩

/-- A sample three-record store for query witnesses (payloads 7, 3, 3;
distinct ids 0, 1, 2). -/
def qStore : Store Nat :=
  ⟨[⟨⟨0, 5, 5, 1⟩, 7⟩, ⟨⟨1, 9, 9, 1⟩, 3⟩, ⟨⟨2, 7, 7, 1⟩, 3⟩], 3⟩

/-- The same records as `qStore`, inserted in a different order. -/
def qStore2 : Store Nat :=
  ⟨[⟨⟨1, 9, 9, 1⟩, 3⟩, ⟨⟨2, 7, 7, 1⟩, 3⟩, ⟨⟨0, 5, 5, 1⟩, 7⟩], 3⟩

/-- A sample job sitting in the Running state. -/
def jobRunning : Job := ⟨1, 2, "ds@example.org", .running, 0, none⟩

/-- Sample execution artifacts: one output file containing "ABC". -/
def sampleArtifacts : Artifacts := ⟨[("output.txt", [65, 66, 67])]⟩

/-- A sample disclosure-gate job awaiting output review. -/
def gateJobPOR : GateJob :=
  ⟨"do@example.org", "ds@example.org", .pendingOutputReview,
    sampleArtifacts, none⟩

/-- A sample dataset. -/
def wineDS : Dataset :=
  ⟨"do@example.org", "wine", ["priv"], ["mock"], "red wine quality"⟩

/-- A second dataset with the same owner and name as `wineDS`. -/
def wineDS2 : Dataset :=
  ⟨"do@example.org", "wine", ["priv2"], ["mock2"], "another summary"⟩

/-! # Theorems -/

/-- C1: for every declared transition (source, target, actor) of the
job lifecycle table, applying that transition to a Job in the source
state with the correct actor (and, for `Failed → Queued`, retries
remaining) yields the target state; applying any (source, target) pair
not in the table fails with `InvalidTransition` and leaves the stored
Job record unchanged. -/
theorem transition_table_correct (maxRetries : Nat) :
    (∀ (src tgt : JobStatus) (a : Actor), edgeActor src tgt = some a →
      ∀ j : Job, j.status = src → edgeGuard maxRetries src tgt j = true →
        applyTransition maxRetries a tgt j =
          .ok { j with
                  status := tgt,
                  retries := if src = .failed ∧ tgt = .queued
                             then j.retries + 1 else j.retries }) ∧
    (∀ (tgt : JobStatus) (a : Actor) (now i : Nat) (s : Store Job)
        (r : StoreRec Job), Store.read i s = .ok r →
      edgeActor r.value.status tgt = none →
        transitionInStore now maxRetries a tgt i s =
          (.error .InvalidTransition, s)) := by
  constructor
  · intro src tgt a h j hj hg
    obtain ⟨ds, uc, rq, st, rt, fl⟩ := j
    simp only [Job.status] at hj
    subst hj
    cases st <;> cases tgt <;>
      simp_all [edgeActor, applyTransition, edgeGuard]
  · intro tgt a now i s r hread hnone
    simp only [transitionInStore, hread, applyTransition, hnone]

/-- Reading succeeds exactly when `find?` locates the id. -/
theorem read_ok_iff {α : Type} {s : Store α} {i : Nat} {r : StoreRec α} :
    Store.read i s = .ok r ↔
      s.records.find? (fun q => q.meta.id == i) = some r := by
  cases h : s.records.find? (fun q => q.meta.id == i) <;>
    simp [Store.read, h]

/-- After replacing the record with id `i` by `r2` (whose id is `i`),
`find?` locates `r2`, provided some record with id `i` was present. -/
theorem find?_replace {α : Type} (l : List (StoreRec α)) (i : Nat)
    (r r2 : StoreRec α)
    (h : l.find? (fun q => q.meta.id == i) = some r)
    (hid : r2.meta.id = i) :
    (l.map (fun q => if q.meta.id == i then r2 else q)).find?
        (fun q => q.meta.id == i) = some r2 := by
  induction l with
  | nil => simp at h
  | cons a l ih =>
    by_cases hp : a.meta.id = i
    · simp [hp, hid]
    · rw [List.find?_cons_of_neg _ (by simp [hp])] at h
      simpa [hp, List.find?_cons_of_neg] using ih h

/-- C7: `create(r)` then `read` of the assigned id returns a record
whose payload equals `r`, differing only in the server-assigned
id/timestamps/version metadata; `read` of an id held by no record
fails with `NotFound`. -/
theorem create_read_roundtrip {α : Type} (conflict : α → α → Bool)
    (s : Store α) (v : α) (now : Nat) (hwf : s.WF)
    (hnc : s.records.all (fun q => !conflict q.value v) = true) :
    Store.create conflict now v s =
      (.ok s.nextId,
        ⟨s.records ++ [⟨⟨s.nextId, now, now, 1⟩, v⟩], s.nextId + 1⟩) ∧
    Store.read s.nextId (Store.create conflict now v s).2 =
      .ok ⟨⟨s.nextId, now, now, 1⟩, v⟩ ∧
    ∀ (i2 : Nat) (s3 : Store α), (∀ q ∈ s3.records, q.meta.id ≠ i2) →
      Store.read i2 s3 = .error .NotFoundError := by
  have hne : ¬ s.records.any (fun r => conflict r.value v) = true := by
    intro hcontra
    obtain ⟨q, hq, hcq⟩ := List.any_eq_true.mp hcontra
    have hall := List.all_eq_true.mp hnc q hq
    simp [hcq] at hall
  have hcreate : Store.create conflict now v s =
      (.ok s.nextId,
        ⟨s.records ++ [⟨⟨s.nextId, now, now, 1⟩, v⟩], s.nextId + 1⟩) := by
    simp [Store.create, hne]
  refine ⟨hcreate, ?_, ?_⟩
  · rw [hcreate]
    rw [read_ok_iff]
    rw [List.find?_append]
    have h1 : s.records.find? (fun q => q.meta.id == s.nextId) = none := by
      rw [List.find?_eq_none]
      intro q hq
      simp only [beq_iff_eq]
      exact Nat.ne_of_lt (hwf.2 q hq)
    simp [h1]
  · intro i2 s3 habs
    have h2 : s3.records.find? (fun q => q.meta.id == i2) = none := by
      rw [List.find?_eq_none]
      intro q hq
      simp only [beq_iff_eq]
      exact habs q hq
    simp [Store.read, h2]

/-- C7 witness: on a concrete one-record store, creating the payload
`9` and reading the assigned id round-trips, and reading an absent id
fails with `NotFound`. -/
theorem create_read_roundtrip_witness :
    Store.create (fun _ _ => false) 6 9 natStore =
      (.ok 1, ⟨[⟨⟨0, 5, 5, 1⟩, 7⟩, ⟨⟨1, 6, 6, 1⟩, 9⟩], 2⟩) ∧
    Store.read 1 (Store.create (fun _ _ => false) 6 9 natStore).2 =
      .ok ⟨⟨1, 6, 6, 1⟩, 9⟩ ∧
    Store.read 5 natStore = .error .NotFoundError := by
  have h := create_read_roundtrip (fun _ _ => false) natStore 9 6
    (by decide) (by decide)
  exact ⟨h.1, h.2.1, h.2.2 5 natStore (by decide)⟩

/-- C9: a successful `update(id, newValue, expectedVersion)` leaves the
stored record's `id` and `created_at` unchanged, increments its version
counter by exactly one, and the updated record is what a subsequent
read returns. -/
theorem update_preserves_id_created_at {α : Type} (s : Store α)
    (i ev now : Nat) (v : α) (r r2 : StoreRec α)
    (hread : Store.read i s = .ok r)
    (hupd : (Store.update now i v ev s).1 = .ok r2) :
    r2.meta.id = r.meta.id ∧ r2.meta.created_at = r.meta.created_at ∧
    r2.meta.version = r.meta.version + 1 ∧
    Store.read i (Store.update now i v ev s).2 = .ok r2 := by
  have hfind := read_ok_iff.mp hread
  have hri0 := List.find?_some hfind
  have hri : (r.meta.id == i) = true := by simpa using hri0
  by_cases hv : r.meta.version = ev
  · subst hv
    have h2 : r2 = ⟨⟨r.meta.id, r.meta.created_at, now, r.meta.version + 1⟩, v⟩ := by
      simp [Store.update, hfind] at hupd
      exact hupd.symm
    subst h2
    refine ⟨rfl, rfl, rfl, ?_⟩
    rw [read_ok_iff]
    simp only [Store.update, hfind, if_pos]
    exact find?_replace s.records i r _ hfind (by simpa using hri)
  · simp [Store.update, hfind, hv] at hupd

/-- C9 witness: updating the concrete record with id 0 at its current
version 1 keeps id and `created_at` and bumps the version to 2. -/
theorem update_preserves_id_created_at_witness :
    (⟨⟨0, 5, 8, 2⟩, 42⟩ : StoreRec Nat).meta.id = 0 ∧
    (⟨⟨0, 5, 8, 2⟩, 42⟩ : StoreRec Nat).meta.created_at = 5 ∧
    (⟨⟨0, 5, 8, 2⟩, 42⟩ : StoreRec Nat).meta.version = 1 + 1 ∧
    Store.read 0 (Store.update 8 0 42 1 natStore).2 =
      .ok ⟨⟨0, 5, 8, 2⟩, 42⟩ := by
  have h := update_preserves_id_created_at natStore 0 1 8 42
    ⟨⟨0, 5, 5, 1⟩, 7⟩ ⟨⟨0, 5, 8, 2⟩, 42⟩ rfl rfl
  exact ⟨h.1, h.2.1, h.2.2.1, h.2.2.2⟩

/-- C2: two `update` calls against the same id carrying the same
`expectedVersion` (the version both callers last read): the first
succeeds, the second fails with `Conflict` and modifies nothing, and
the stored record afterwards equals the winner's new value. -/
theorem stale_update_conflict {α : Type} (s : Store α)
    (i now1 now2 : Nat) (n1 n2 : α) (r : StoreRec α)
    (hread : Store.read i s = .ok r) :
    (Store.update now1 i n1 r.meta.version s).1 =
      .ok ⟨⟨r.meta.id, r.meta.created_at, now1, r.meta.version + 1⟩, n1⟩ ∧
    (Store.update now2 i n2 r.meta.version
        (Store.update now1 i n1 r.meta.version s).2).1 =
      .error .Conflict ∧
    (Store.update now2 i n2 r.meta.version
        (Store.update now1 i n1 r.meta.version s).2).2 =
      (Store.update now1 i n1 r.meta.version s).2 ∧
    Store.read i (Store.update now1 i n1 r.meta.version s).2 =
      .ok ⟨⟨r.meta.id, r.meta.created_at, now1, r.meta.version + 1⟩, n1⟩ := by
  have hfind := read_ok_iff.mp hread
  have hri0 := List.find?_some hfind
  have hri : (r.meta.id == i) = true := by simpa using hri0
  have h1 : Store.update now1 i n1 r.meta.version s =
      (.ok ⟨⟨r.meta.id, r.meta.created_at, now1, r.meta.version + 1⟩, n1⟩,
        ⟨s.records.map (fun q =>
          if q.meta.id == i then
            ⟨⟨r.meta.id, r.meta.created_at, now1, r.meta.version + 1⟩, n1⟩
          else q), s.nextId⟩) := by
    simp [Store.update, hfind]
  have hfind2 : (s.records.map (fun q =>
      if q.meta.id == i then
        (⟨⟨r.meta.id, r.meta.created_at, now1, r.meta.version + 1⟩, n1⟩ :
          StoreRec α)
      else q)).find? (fun q => q.meta.id == i) =
      some ⟨⟨r.meta.id, r.meta.created_at, now1, r.meta.version + 1⟩, n1⟩ :=
    find?_replace s.records i r _ hfind (by simpa using hri)
  rw [h1]
  refine ⟨rfl, ?_, ?_, read_ok_iff.mpr hfind2⟩
  · simp only [Store.update]
    rw [hfind2]
    simp
  · simp only [Store.update]
    rw [hfind2]
    simp

/-- C2 witness: on the concrete store, two updates both carrying
expected version 1 of record 0: the first wins, the second conflicts
and leaves the store as the winner left it. -/
theorem stale_update_conflict_witness :
    (Store.update 8 0 21 1 natStore).1 = .ok ⟨⟨0, 5, 8, 2⟩, 21⟩ ∧
    (Store.update 9 0 22 1 (Store.update 8 0 21 1 natStore).2).1 =
      .error .Conflict ∧
    (Store.update 9 0 22 1 (Store.update 8 0 21 1 natStore).2).2 =
      (Store.update 8 0 21 1 natStore).2 ∧
    Store.read 0 (Store.update 8 0 21 1 natStore).2 =
      .ok ⟨⟨0, 5, 8, 2⟩, 21⟩ :=
  stale_update_conflict natStore 0 8 9 21 22 ⟨⟨0, 5, 5, 1⟩, 7⟩ rfl

/-- C6: creating a second dataset with the same name under the same
owner fails with `AlreadyExists`, modifies nothing, and the first
dataset remains stored unchanged. -/
theorem dataset_name_unique (s s1 : Store Dataset) (d1 d2 : Dataset)
    (now1 now2 i1 : Nat) (hwf : s.WF)
    (hc : Store.create datasetConflict now1 d1 s = (.ok i1, s1))
    (howner : d2.owner = d1.owner) (hname : d2.name = d1.name) :
    (Store.create datasetConflict now2 d2 s1).1 = .error .AlreadyExists ∧
    (Store.create datasetConflict now2 d2 s1).2 = s1 ∧
    Store.read i1 s1 = .ok ⟨⟨i1, now1, now1, 1⟩, d1⟩ := by
  by_cases hne : s.records.any (fun r => datasetConflict r.value d1) = true
  · simp [Store.create, hne] at hc
  · have hc2 : (.ok s.nextId,
        (⟨s.records ++ [⟨⟨s.nextId, now1, now1, 1⟩, d1⟩], s.nextId + 1⟩ :
          Store Dataset)) =
        ((.ok i1 : Except ErrorKind Nat), s1) := by
      rw [← hc]; simp [Store.create, hne]
    have hi1 : s.nextId = i1 := by
      have := congrArg Prod.fst hc2
      simpa using this
    have hs1 : s1 = ⟨s.records ++ [⟨⟨s.nextId, now1, now1, 1⟩, d1⟩],
        s.nextId + 1⟩ := by
      have := congrArg Prod.snd hc2
      simpa using this.symm
    have hconf : s1.records.any (fun r => datasetConflict r.value d2) = true := by
      rw [hs1]
      simp only [List.any_append, List.any_cons, List.any_nil, Bool.or_eq_true]
      right
      simp [datasetConflict, howner, hname]
    refine ⟨by simp [Store.create, hconf], by simp [Store.create, hconf], ?_⟩
    rw [hs1, ← hi1]
    rw [read_ok_iff]
    rw [List.find?_append]
    have h1 : s.records.find? (fun q => q.meta.id == s.nextId) = none := by
      rw [List.find?_eq_none]
      intro q hq
      simp only [beq_iff_eq]
      exact Nat.ne_of_lt (hwf.2 q hq)
    simp [h1]

/-- C6 witness: creating `wineDS` in the empty dataset store and then
creating `wineDS2` (same owner, same name) fails with `AlreadyExists`
and leaves the first dataset stored unchanged. -/
theorem dataset_name_unique_witness :
    (Store.create datasetConflict 21 wineDS2
        (Store.create datasetConflict 20 wineDS Store.empty).2).1 =
      .error .AlreadyExists ∧
    (Store.create datasetConflict 21 wineDS2
        (Store.create datasetConflict 20 wineDS Store.empty).2).2 =
      (Store.create datasetConflict 20 wineDS Store.empty).2 ∧
    Store.read 0 (Store.create datasetConflict 20 wineDS Store.empty).2 =
      .ok ⟨⟨0, 20, 20, 1⟩, wineDS⟩ :=
  dataset_name_unique Store.empty
    (Store.create datasetConflict 20 wineDS Store.empty).2
    wineDS wineDS2 20 21 0 (by decide) rfl rfl rfl

/-- C1 witness: the declared edge `CodeReview → Queued` by the data
owner succeeds on a concrete job, and the undeclared pair
`CodeReview → Running` fails with `InvalidTransition`, leaving a
concrete store unchanged. -/
theorem transition_table_correct_witness :
    applyTransition 3 .dataOwner .queued jobCR =
      .ok { jobCR with status := .queued } ∧
    transitionInStore 11 3 .dataOwner .running 0 storeCR =
      (.error .InvalidTransition, storeCR) := by
  constructor
  · have h := (transition_table_correct 3).1 .codeReview .queued
      .dataOwner (by decide) jobCR (by decide) (by decide)
    simpa [jobCR] using h
  · exact (transition_table_correct 3).2 .running .dataOwner 11 0 storeCR
      ⟨⟨0, 10, 10, 1⟩, jobCR⟩ rfl rfl

/-- C3: before `share_results`, `get_results` called by the requester
fails with `DisclosureError`; after `share_results`, `get_results`
returns artifacts byte-identical to what `review_results` returned to
the owner before sharing. -/
theorem disclosure_gate_correct (j : GateJob)
    (hst : j.status = .pendingOutputReview) :
    get_results j.requester j = .error .DisclosureError ∧
    share_results j.owner j =
      .ok { j with status := .outputShared, shared := some j.outputs } ∧
    get_results j.requester
        { j with status := .outputShared, shared := some j.outputs } =
      .ok j.outputs ∧
    review_results j.owner j = .ok j.outputs := by
  obtain ⟨ow, rq, st, outs, sh⟩ := j
  simp only [GateJob.status] at hst
  subst hst
  refine ⟨?_, ?_, ?_, ?_⟩
  · cases sh <;> simp [get_results]
  · simp [share_results]
  · simp [get_results]
  · simp [review_results]

/-- C3 witness: on a concrete pending-review job, the requester's
`get_results` fails with `DisclosureError`; after the owner shares, the
requester receives exactly the bytes the owner reviewed. -/
theorem disclosure_gate_correct_witness :
    get_results "ds@example.org" gateJobPOR = .error .DisclosureError ∧
    share_results "do@example.org" gateJobPOR =
      .ok { gateJobPOR with status := .outputShared,
                            shared := some sampleArtifacts } ∧
    get_results "ds@example.org"
        { gateJobPOR with status := .outputShared,
                          shared := some sampleArtifacts } =
      .ok sampleArtifacts ∧
    review_results "do@example.org" gateJobPOR = .ok sampleArtifacts := by
  have h := disclosure_gate_correct gateJobPOR rfl
  exact h

/-- C4: a script whose run time exceeds the timeout has `TERM` sent to
the full monitored process group, is reported as `ExecutionTimeout` — a
kind distinct from `ExecutionFailure` — and the Running job moves to
`Failed` carrying that diagnostic. -/
theorem timeout_reaches_failed (limit maxRetries : Nat) (r : ScriptRun)
    (j : Job) (hrun : j.status = .running) (hexceed : limit < r.duration) :
    timeoutRun limit r = ⟨124, true⟩ ∧
    entrypointRun limit r = ⟨124, true⟩ ∧
    reportOf (entrypointRun limit r) = .failure ⟨.ExecutionTimeout, 124⟩ ∧
    ErrorKind.ExecutionTimeout ≠ ErrorKind.ExecutionFailure ∧
    jobAfterRun maxRetries limit r j =
      .ok { j with status := .failed,
                   failure := some ⟨.ExecutionTimeout, 124⟩ } := by
  obtain ⟨ds, uc, rq, st, rt, fl⟩ := j
  simp only [Job.status] at hrun
  subst hrun
  refine ⟨?_, ?_, ?_, by decide, ?_⟩ <;>
    simp [timeoutRun, entrypointRun, reportOf, jobAfterRun,
      applyTransition, edgeActor, edgeGuard, hexceed]

/-- C4 witness: with the default 60-second limit, a 61-second script in
a concrete Running job is reported as a timeout and the job fails with
the `ExecutionTimeout` diagnostic. -/
theorem timeout_reaches_failed_witness :
    timeoutRun 60 ⟨61, 0⟩ = ⟨124, true⟩ ∧
    entrypointRun 60 ⟨61, 0⟩ = ⟨124, true⟩ ∧
    reportOf (entrypointRun 60 ⟨61, 0⟩) =
      .failure ⟨.ExecutionTimeout, 124⟩ ∧
    ErrorKind.ExecutionTimeout ≠ ErrorKind.ExecutionFailure ∧
    jobAfterRun 3 60 ⟨61, 0⟩ jobRunning =
      .ok { jobRunning with status := .failed,
                            failure := some ⟨.ExecutionTimeout, 124⟩ } :=
  timeout_reaches_failed 60 3 ⟨61, 0⟩ jobRunning rfl (by decide)

/-- C5: in the materialised execution context, no path below the code
mount and no path below the dataset mount is writable, the process uid
is non-privileged, and every writable path lies below the output
directory. -/
theorem exec_isolation :
    (∀ p : List String,
      canWrite execContext runtimeUid ("code" :: p) = false) ∧
    (∀ p : List String,
      canWrite execContext runtimeUid ("data" :: p) = false) ∧
    execContext.uid ≠ 0 ∧
    (∀ q : List String, canWrite execContext runtimeUid q = true →
      underPath ["output"] q = true) := by
  refine ⟨?_, ?_, by decide, ?_⟩
  · intro p
    simp [canWrite, execContext, underPath, List.isPrefixOf,
      modeAllowsWrite, runtimeUid]
  · intro p
    simp [canWrite, execContext, underPath, List.isPrefixOf,
      modeAllowsWrite, runtimeUid]
  · intro q h
    simp only [canWrite, execContext, List.any_cons, List.any_nil,
      Bool.or_eq_true, Bool.and_eq_true] at h
    rcases h with (h | h | h) <;>
      simp_all [modeAllowsWrite, runtimeUid]

/-- C5 witness: the code file itself is not writable, while a concrete
writable path is confirmed to lie below the output directory. -/
theorem exec_isolation_witness :
    canWrite execContext runtimeUid ["code", "main.py"] = false ∧
    underPath ["output"] ["output", "result.txt"] = true :=
  ⟨exec_isolation.1 ["main.py"],
    exec_isolation.2.2.2 ["output", "result.txt"] (by decide)⟩

/-- C10 counterexample: a script that exits on its own with code 5,
well within the time limit: the wrapper exits with status 1, not 5 —
the original nonzero exit code does not propagate unchanged. -/
theorem entrypoint_exit_code_not_preserved :
    entrypointRun 60 ⟨10, 5⟩ = ⟨1, false⟩ ∧
    (entrypointRun 60 ⟨10, 5⟩).exitCode ≠ 5 := by decide

/-- C10 (amended): the wrapper classifies an execution as a timeout
solely by the wrapped command exiting 124: any such run — including a
script that itself exits 124 without exceeding the limit — is reported
as a timeout with `TIMEOUT_MESSAGE` on stderr; every other nonzero exit
code is reported as an ordinary failure, with the wrapper's own exit
status 1 replacing the original code. -/
theorem entrypoint_classification (limit : Nat) (r : ScriptRun) :
    ((timeoutRun limit r).exitCode = 124 →
      entrypointRun limit r = ⟨124, true⟩ ∧
      reportOf (entrypointRun limit r) =
        .failure ⟨.ExecutionTimeout, 124⟩) ∧
    (r.duration ≤ limit → r.exitCode = 124 →
      entrypointRun limit r = ⟨124, true⟩) ∧
    (r.duration ≤ limit → r.exitCode ≠ 0 → r.exitCode ≠ 124 →
      entrypointRun limit r = ⟨1, false⟩ ∧
      reportOf (entrypointRun limit r) =
        .failure ⟨.ExecutionFailure, 1⟩) := by
  refine ⟨?_, ?_, ?_⟩
  · intro h
    simp [entrypointRun, reportOf, h]
  · intro hd hc
    have hnot : ¬ limit < r.duration := by omega
    simp [entrypointRun, timeoutRun, hnot, hc]
  · intro hd hc0 hc124
    have hnot : ¬ limit < r.duration := by omega
    simp [entrypointRun, reportOf, timeoutRun, hnot, hc0, hc124]

/-- C10 (amended) witness: a script exiting 124 by itself within the
limit is reported as a timeout; a script exiting 5 is reported as an
ordinary failure with wrapper exit status 1. -/
theorem entrypoint_classification_witness :
    entrypointRun 60 ⟨10, 124⟩ = ⟨124, true⟩ ∧
    entrypointRun 60 ⟨10, 5⟩ = ⟨1, false⟩ ∧
    reportOf (entrypointRun 60 ⟨10, 5⟩) =
      .failure ⟨.ExecutionFailure, 1⟩ := by
  refine ⟨(entrypoint_classification 60 ⟨10, 124⟩).2.1 (by decide)
      (by decide), ?_, ?_⟩
  · exact ((entrypoint_classification 60 ⟨10, 5⟩).2.2 (by decide)
      (by decide) (by decide)).1
  · exact ((entrypoint_classification 60 ⟨10, 5⟩).2.2 (by decide)
      (by decide) (by decide)).2

/-- `keyLe` is transitive. -/
theorem keyLe_trans (ord : SortOrder) (x y z : Nat × Nat)
    (h1 : keyLe ord x y = true) (h2 : keyLe ord y z = true) :
    keyLe ord x z = true := by
  cases ord <;>
    · simp only [keyLe] at h1 h2 ⊢
      split_ifs at h1 h2 ⊢ <;>
        simp only [decide_eq_true_eq] at h1 h2 ⊢ <;> omega

/-- `keyLe` is total. -/
theorem keyLe_total (ord : SortOrder) (x y : Nat × Nat) :
    (keyLe ord x y || keyLe ord y x) = true := by
  cases ord <;>
    · simp only [keyLe]
      split_ifs <;>
        simp only [Bool.or_eq_true, decide_eq_true_eq] <;> omega

/-- `keyLe` is antisymmetric. -/
theorem keyLe_antisymm (ord : SortOrder) (x y : Nat × Nat)
    (h1 : keyLe ord x y = true) (h2 : keyLe ord y x = true) : x = y := by
  rw [Prod.ext_iff]
  cases ord <;>
    · simp only [keyLe] at h1 h2
      split_ifs at h1 h2 <;>
        simp only [decide_eq_true_eq] at h1 h2 <;> constructor <;> omega

/-- `keyLt` is asymmetric. -/
theorem keyLt_asymm (ord : SortOrder) (x y : Nat × Nat)
    (h1 : keyLt ord x y = true) (h2 : keyLt ord y x = true) : False := by
  simp only [keyLt, Bool.and_eq_true, Bool.not_eq_true', beq_eq_false_iff_ne,
    ne_eq] at h1 h2
  exact h1.1 (keyLe_antisymm ord x y h1.2 h2.2)

/-- A non-strict comparison between records with distinct ids is
strict. -/
theorem recLt_of_recLe_ne {α : Type} (ob : Option (StoreRec α → Nat))
    (so : Option SortOrder) (a b : StoreRec α)
    (hle : recLe ob so a b = true) (hne : a.meta.id ≠ b.meta.id) :
    recLt ob so a b = true := by
  simp only [recLe] at hle
  simp only [recLt, keyLt, Bool.and_eq_true, Bool.not_eq_true',
    beq_eq_false_iff_ne, ne_eq]
  refine ⟨?_, hle⟩
  intro hk
  exact hne (congrArg Prod.snd hk)

/-- C8: `query(filters, order_by, sort_order, limit)` returns exactly
the records matching all filter predicates (with no limit), in an order
sorted by the `order_by` valuation with id as tie-break; the default
order (no `order_by`, no `sort_order`) is `created_at` descending; and
the result is independent of creation order: any store holding the same
records in any order yields the identical result list. -/
theorem query_spec {α : Type} (s s2 : Store α) (fs : List (Filter α))
    (ob : Option (StoreRec α → Nat)) (so : Option SortOrder)
    (lim : Option Nat)
    (hnodup : (s.records.map (fun r => r.meta.id)).Nodup)
    (hperm : s2.records.Perm s.records) :
    (∀ r : StoreRec α, r ∈ Store.query fs ob so none s ↔
      r ∈ s.records ∧ matchesAll fs r = true) ∧
    (Store.query fs ob so lim s).Pairwise
      (fun a b => recLe ob so a b = true) ∧
    Store.query fs none none lim s =
      Store.query fs (some (fun r => r.meta.created_at)) (some .desc)
        lim s ∧
    Store.query fs ob so lim s2 = Store.query fs ob so lim s := by
  have htrans : ∀ a b c : StoreRec α, recLe ob so a b = true →
      recLe ob so b c = true → recLe ob so a c = true := by
    intro a b c h1 h2
    exact keyLe_trans _ _ _ _ h1 h2
  have htotal : ∀ a b : StoreRec α,
      (recLe ob so a b || recLe ob so b a) = true := by
    intro a b
    exact keyLe_total _ _ _
  have hpw : ∀ l : List (StoreRec α),
      (l.mergeSort (recLe ob so)).Pairwise
        (fun a b => recLe ob so a b = true) :=
    List.sorted_mergeSort htrans htotal
  refine ⟨?_, ?_, rfl, ?_⟩
  · intro r
    simp [Store.query, List.mem_filter]
  · cases lim with
    | none => simpa [Store.query] using hpw (s.records.filter (matchesAll fs))
    | some n =>
      simp only [Store.query]
      exact List.Pairwise.sublist (List.take_sublist _ _)
        (hpw (s.records.filter (matchesAll fs)))
  · have hfperm : (s2.records.filter (matchesAll fs)).Perm
        (s.records.filter (matchesAll fs)) := hperm.filter _
    have hm : ((s2.records.filter (matchesAll fs)).mergeSort
        (recLe ob so)).Perm
        ((s.records.filter (matchesAll fs)).mergeSort (recLe ob so)) :=
      ((List.mergeSort_perm _ _).trans hfperm).trans
        (List.mergeSort_perm _ _).symm
    have hnd1 : (((s.records.filter (matchesAll fs)).mergeSort
        (recLe ob so)).map (fun r => r.meta.id)).Nodup := by
      have hsub : List.Sublist
          ((s.records.filter (matchesAll fs)).map (fun r => r.meta.id))
          (s.records.map (fun r => r.meta.id)) :=
        List.Sublist.map _ (List.filter_sublist _)
      have hndf := List.Nodup.sublist hsub hnodup
      exact ((List.mergeSort_perm
        (s.records.filter (matchesAll fs)) (recLe ob so)).map
          (fun r => r.meta.id)).symm.nodup hndf
    have hnd2 : (((s2.records.filter (matchesAll fs)).mergeSort
        (recLe ob so)).map (fun r => r.meta.id)).Nodup :=
      ((hm.map (fun r => r.meta.id)).symm).nodup hnd1
    have hstrict : ∀ l : List (StoreRec α),
        l.Pairwise (fun a b => recLe ob so a b = true) →
        (l.map (fun r => r.meta.id)).Nodup →
        l.Pairwise (fun a b => recLt ob so a b = true) := by
      intro l hle hnd
      have hne : l.Pairwise (fun a b => a.meta.id ≠ b.meta.id) :=
        List.pairwise_map.mp hnd
      exact (hle.and hne).imp
        (fun h => recLt_of_recLe_ne ob so _ _ h.1 h.2)
    have hlt1 := hstrict _ (hpw (s.records.filter (matchesAll fs))) hnd1
    have hlt2 := hstrict _ (hpw (s2.records.filter (matchesAll fs))) hnd2
    have hanti : IsAntisymm (StoreRec α)
        (fun a b => recLt ob so a b = true) := by
      constructor
      intro a b h1 h2
      exact (keyLt_asymm _ _ _ h1 h2).elim
    have heq : (s2.records.filter (matchesAll fs)).mergeSort
        (recLe ob so) =
        (s.records.filter (matchesAll fs)).mergeSort (recLe ob so) :=
      @List.eq_of_perm_of_sorted _ _ hanti _ _ hm hlt2 hlt1
    simp only [Store.query, heq]

/-- C8 witness: on a concrete store, the query for payload 3 contains
the matching record, and the reordered store yields the identical query
result. -/
theorem query_spec_witness :
    ((⟨⟨1, 9, 9, 1⟩, 3⟩ : StoreRec Nat) ∈
      Store.query [Filter.exact (fun r => r.value) 3] none none none
        qStore) ∧
    Store.query [Filter.exact (fun r => r.value) 3] none none none
        qStore2 =
      Store.query [Filter.exact (fun r => r.value) 3] none none none
        qStore := by
  have h := query_spec qStore qStore2
    [Filter.exact (fun r => r.value) 3] none none none
    (by decide) (by decide)
  exact ⟨(h.1 _).mpr ⟨by decide, by decide⟩, h.2.2.2⟩

end SyftDS
